import Mathlib

/-!
Verification development for the Wadokei (和時計) repository.

The JavaScript source is shallowly embedded:

* JS `number` arithmetic on angles is embedded as real arithmetic (`ℝ`);
  the JS remainder operator `%` (truncated toward zero, sign of the
  dividend) is embedded as `jsMod`.
* Instants (`Date.getTime()` millisecond values) are embedded as `ℤ`.
* Calendar `Date` objects built from local (year, month, day, time) fields
  are embedded as the `Instant` structure together with the order-surrogate
  `key`, which is order-isomorphic to the epoch-millisecond value on valid
  civil dates (chronological order of valid local dates is lexicographic
  in year, month, day, time-of-day).
* Solar altitudes are embedded through a `LinearOrderedField` parameter
  (instantiated at `ℚ` for executable witnesses and at `ℝ` in the
  Kansei-correction pipeline); a provider that cannot produce an altitude
  (JS `NaN`) is embedded as `Option.none`, which matches the JS behaviour
  that a `NaN` difference never passes the `diff < bestDiff` test.
-/

open Real

/-- Integer truncation toward zero, as used by the JS `%` operator. -/
noncomputable def jsTrunc (r : ℝ) : ℤ :=
  if 0 ≤ r then ⌊r⌋ else ⌈r⌉

/-- The JS remainder `x % y`: `x - y * trunc (x / y)`; the result carries
the sign of the dividend `x`. -/
noncomputable def jsMod (x y : ℝ) : ℝ :=
  x - y * (jsTrunc (x / y) : ℝ)

/-- Mathematical reduction of `x` into `[0, y)` (used to state spec-side
"mod" formulas such as arc widths `(end − start + 2π) mod 2π`). -/
noncomputable def specMod (x : ℝ) : ℝ :=
  x - 2 * π * (⌊x / (2 * π)⌋ : ℝ)

/-- The twelve zodiac sector names, in the day-first order
卯 辰 巳 午 未 申 酉 戌 亥 子 丑 寅 used by the dial. -/
inductive Zodiac : Type
  /-- 卯 (dawn) -/
  | u
  /-- 辰 -/
  | tatsu
  /-- 巳 -/
  | mi
  /-- 午 (noon) -/
  | uma
  /-- 未 -/
  | hitsuji
  /-- 申 -/
  | saru
  /-- 酉 (dusk) -/
  | tori
  /-- 戌 -/
  | inu
  /-- 亥 -/
  | i
  /-- 子 (midnight) -/
  | ne
  /-- 丑 -/
  | ushi
  /-- 寅 -/
  | tora
deriving DecidableEq, Repr

/-- Embedding of the `angle[...]` object built by `drawBackplane`
(src/wadokei.js), before the dial-mode rotation: anchors
`午 = 0`, `子 = π`, `卯 = −θ/2`, `酉 = +θ/2`, and each of the four
anchor-to-anchor arcs trisected with the JS `%` reduction, where
`θ = thetaDay` is the corrected day length as an angle. -/
noncomputable def anglePre (theta : ℝ) : Zodiac → ℝ :=
  let aUma : ℝ := 0
  let aNe : ℝ := π
  let aU : ℝ := -(theta / 2)
  let aTori : ℝ := theta / 2
  let w1 := jsMod (aUma - aU + 2 * π) (2 * π)
  let aTatsu := jsMod (aU + w1 / 3) (2 * π)
  let aMi := jsMod (aU + 2 * w1 / 3) (2 * π)
  let w1b := jsMod (aTori - aUma + 2 * π) (2 * π)
  let aHitsuji := jsMod (aUma + w1b / 3) (2 * π)
  let aSaru := jsMod (aUma + 2 * w1b / 3) (2 * π)
  let w2 := jsMod (aNe - aTori + 2 * π) (2 * π)
  let aInu := jsMod (aTori + w2 / 3) (2 * π)
  let aI := jsMod (aTori + 2 * w2 / 3) (2 * π)
  let w3 := jsMod (aU - aNe + 2 * π) (2 * π)
  let aUshi := jsMod (aNe + w3 / 3) (2 * π)
  let aTora := jsMod (aNe + 2 * w3 / 3) (2 * π)
  fun z =>
    match z with
    | .u => aU
    | .tatsu => aTatsu
    | .mi => aMi
    | .uma => aUma
    | .hitsuji => aHitsuji
    | .saru => aSaru
    | .tori => aTori
    | .inu => aInu
    | .i => aI
    | .ne => aNe
    | .ushi => aUshi
    | .tora => aTora

/-- The tick-boundary helper `mid(a, b)` of `drawBackplane`: circular
midpoint, `d = (b − a + 2π) % 2π; (a + d/2) % 2π`. -/
noncomputable def mid (a b : ℝ) : ℝ :=
  jsMod (a + jsMod (b - a + 2 * π) (2 * π) / 2) (2 * π)

/-- The `angleTick` array of `drawBackplane` before the dial-mode
rotation: twelve circular midpoints of adjacent sector centers, then the
first tick again plus `2π` (`angleTick.push(angleTick[0] + 2*Math.PI)`). -/
noncomputable def angleTickPre (theta : ℝ) : List ℝ :=
  let a := anglePre theta
  [ mid (a .tora) (a .u)
  , mid (a .u) (a .tatsu)
  , mid (a .tatsu) (a .mi)
  , mid (a .mi) (a .uma)
  , mid (a .uma) (a .hitsuji)
  , mid (a .hitsuji) (a .saru)
  , mid (a .saru) (a .tori)
  , mid (a .tori) (a .inu)
  , mid (a .inu) (a .i)
  , mid (a .i) (a .ne)
  , mid (a .ne) (a .ushi)
  , mid (a .ushi) (a .tora)
  , mid (a .tora) (a .u) + 2 * π ]

/-- The dial-mode rotation amount: `π` when `dialMode === "子上"`, else 0. -/
noncomputable def dialShift (mode : String) : ℝ :=
  if mode = "子上" then π else 0

/-- Sector center angles as returned by `drawBackplane` (`angleZodiac`),
after the dial-mode loop `angle[z] = (angle[z] + shift + 2π) % 2π`. -/
noncomputable def anglePost (theta : ℝ) (mode : String) (z : Zodiac) : ℝ :=
  jsMod (anglePre theta z + dialShift mode + 2 * π) (2 * π)

/-- Tick angles as returned by `drawBackplane` (`angleTick`), after the
dial-mode loop applied to every entry (the closing thirteenth included). -/
noncomputable def angleTickPost (theta : ℝ) (mode : String) : List ℝ :=
  (angleTickPre theta).map (fun a => jsMod (a + dialShift mode + 2 * π) (2 * π))

/-- `thetaDay` of `drawBackplane`: the corrected day span `tY − tU` as a
fraction of 24 h, times `2π`. -/
noncomputable def thetaDayOf (tU tY : ℤ) : ℝ :=
  ((tY - tU : ℤ) : ℝ) / (24 * 3600 * 1000) * (2 * π)

/-- `tickShift` of `drawBackplane`: `trueNoonCorrected = tU + (tY − tU)/2`,
`delta = trueNoonCorrected − noonMs`, `tickShift = delta * (2π / 86400000)`,
where `noonMs` is 12:00:00.000 local time of the sunrise's calendar day. -/
noncomputable def tickShiftOf (tU tY noonMs : ℤ) : ℝ :=
  ((tU : ℝ) + ((tY : ℝ) - (tU : ℝ)) / 2 - (noonMs : ℝ)) * (2 * π / 86400000)

/-- The dial geometry `drawBackplane` hands to its consumer: the rotated
sector-center map and the rotated tick list.  It is computed from the
corrected day boundaries only through `thetaDay`. -/
noncomputable def drawBackplaneGeom (tU tY : ℤ) (mode : String) :
    (Zodiac → ℝ) × List ℝ :=
  (anglePost (thetaDayOf tU tY) mode, angleTickPost (thetaDayOf tU tY) mode)

/-- `drawHand` of src/plugins/plugin.drawHand.js:
`acctualAngle = angle + tickShift + Math.PI / 2`. -/
noncomputable def drawHandActualAngle (angle tickShift : ℝ) : ℝ :=
  angle + tickShift + π / 2

/-- The hand angle drawn by `drawClock` (src/core/wadokei.js): the civil
time-of-day angle, the dial-mode quarter turn, and then `drawHand` with
`tickShift` taken from the backplane result. -/
noncomputable def drawClockHandAngle (seconds : ℕ) (mode : String) (bpShift : ℝ) : ℝ :=
  drawHandActualAngle
    ((seconds : ℝ) / 86400 * (2 * π) + (if mode = "午上" then π / 2 else -(π / 2)))
    bpShift

/-- The instants visited by the `findAltitudeTime1min` loop
`for (let t = new Date(start); t <= end; t = new Date(t.getTime() + 60000))`:
`start, start + 60000, …` while `≤ end` (both ends inclusive when the
window is a multiple of one minute). -/
def scanInstants (start endT : ℤ) : List ℤ :=
  if start ≤ endT then
    (List.range ((endT - start).toNat / 60000 + 1)).map
      (fun k : ℕ => start + 60000 * (k : ℤ))
  else []

/-- One iteration of the `findAltitudeTime1min` loop body.  The tracked
state is `none` for `best = null, bestDiff = Infinity`, else
`some (best, bestDiff)`.  An unavailable altitude (JS `NaN`) is `none` and
leaves the state unchanged, exactly as a `NaN` difference never satisfies
`diff < bestDiff`. -/
def twilightStep {F : Type} [LinearOrderedField F]
    (targetAlt : F) (alt : ℤ → Option F)
    (acc : Option (ℤ × F)) (t : ℤ) : Option (ℤ × F) :=
  match alt t with
  | none => acc
  | some a =>
    let diff := |a - targetAlt|
    match acc with
    | none => some (t, diff)
    | some best => if diff < best.2 then some (t, diff) else some best

/-- `findAltitudeTime1min(start, end, targetAlt, lat, lon)` of
src/unnamed/part_002 (also repeated inside src/wadokei.js): linear
one-minute scan keeping the first instant of minimal
`|altitude − targetAlt|`; returns `null` (`none`) when no usable sample
ever updates the state. -/
def findAltitudeTime1min {F : Type} [LinearOrderedField F]
    (start endT : ℤ) (targetAlt : F) (alt : ℤ → Option F) : Option ℤ :=
  ((scanInstants start endT).foldl (twilightStep targetAlt alt) none).map Prod.fst

/-- The Kansei-calendar twilight threshold of `drawBackplane` and
`ComputeSunData`: `targetAlt = -7.361 * Math.PI / 180`. -/
noncomputable def kanseiTargetAlt : ℝ :=
  -7.361 * π / 180

/-- `ake` (暁六つ) of `drawBackplane` / `ComputeSunData`: search the hour
before sunrise. -/
noncomputable def akeOf (sunrise : ℤ) (alt : ℤ → Option ℝ) : Option ℤ :=
  findAltitudeTime1min (sunrise - 60 * 60000) sunrise kanseiTargetAlt alt

/-- `kure` (暮六つ): search the hour after sunset. -/
noncomputable def kureOf (sunset : ℤ) (alt : ℤ → Option ℝ) : Option ℤ :=
  findAltitudeTime1min sunset (sunset + 60 * 60000) kanseiTargetAlt alt

/-- JS numeric coercion applied when a possibly-`null` `Date` is used in
subtraction (`sunriseDate - ake`): a `Date` converts to its millisecond
value and `null` converts to `0`. -/
def jsDateNum : Option ℤ → ℤ :=
  fun o => o.getD 0

/-- `tU` (卯の正刻) of `drawBackplane`:
`diffAke = sunriseDate - ake; tU = sunrise - diffAke`. -/
noncomputable def tUOf (sunrise : ℤ) (alt : ℤ → Option ℝ) : ℤ :=
  sunrise - (sunrise - jsDateNum (akeOf sunrise alt))

/-- `tY` (酉の正刻) of `drawBackplane`:
`diffKure = kure - sunsetDate; tY = sunset + diffKure`. -/
noncomputable def tYOf (sunset : ℤ) (alt : ℤ → Option ℝ) : ℤ :=
  sunset + (jsDateNum (kureOf sunset alt) - sunset)

/-- A local civil instant: the (year, month, day, millisecond-of-day)
fields a JS `Date` exposes in local time.  Month is 1-based (the source's
`makeDate` subtracts 1 before calling the `Date` constructor). -/
structure Instant where
  /-- `getFullYear()` -/
  y : ℤ
  /-- month, 1-based -/
  mo : ℕ
  /-- `getDate()` (day of month) -/
  d : ℕ
  /-- milliseconds elapsed since local midnight -/
  ms : ℕ
deriving DecidableEq, Repr

/-- Order surrogate for `Date.getTime()`: lexicographic in
(year, month, day, time-of-day), which is order-isomorphic to the epoch
millisecond value on valid civil dates (month 1–12, day 1–31,
time-of-day < 86400000 ms).  Only comparisons of instants are used by the
embedded code. -/
def key (t : Instant) : ℤ :=
  t.y * 33177600000 + ((t.mo : ℤ) - 1) * 2764800000 + (t.d : ℤ) * 86400000 + (t.ms : ℤ)

/-- The local calendar date of an instant (`Date.toDateString()` up to
formatting). -/
def localDate (t : Instant) : ℤ × ℕ × ℕ :=
  (t.y, t.mo, t.d)

/-- The record returned by `ComputeSunData` (src/unnamed/part_002, the
utils/taiyou.js variant with the Kansei correction; src/unnamed/part_001
is the same function without the `ake`/`kure` fields). -/
structure SunData where
  /-- `sunTimes.sunrise.getTime()` -/
  sunrise : ℤ
  /-- `sunTimes.sunset.getTime()` -/
  sunset : ℤ
  /-- `sunset - sunrise` -/
  Lday : ℤ
  /-- `sunrise + Lday / 2` -/
  trueNoon : ℚ
  /-- 暁六つ -/
  ake : Option ℤ
  /-- 暮六つ -/
  kure : Option ℤ
deriving DecidableEq, Repr

/-- `ComputeSunData(date)` of src/unnamed/part_002.  The external
collaborators are parameters: `getSunTimes` stands for
`SunCalc.getTimes(calcDate, lat, lon)` (the configured coordinates are
absorbed into it) and takes the fields of
`calcDate = new Date(date.getFullYear(), date.getMonth(), date.getDate())`;
`alt` stands for `SunCalc.getPosition(t, lat, lon).altitude`. -/
noncomputable def ComputeSunData (getSunTimes : ℤ → ℕ → ℕ → ℤ × ℤ)
    (alt : ℤ → Option ℝ) (date : Instant) : SunData :=
  let st := getSunTimes date.y date.mo date.d
  let sunrise := st.1
  let sunset := st.2
  let Lday := sunset - sunrise
  let trueNoon : ℚ := (sunrise : ℚ) + (Lday : ℚ) / 2
  { sunrise := sunrise
  , sunset := sunset
  , Lday := Lday
  , trueNoon := trueNoon
  , ake := akeOf sunrise alt
  , kure := kureOf sunset alt }

/-- The mutable state touched by the per-day cache step of `draw()`
(src/core/wadokei.js): `Wadokei.sun` and `Wadokei.state.lastSunCalcDate`. -/
structure WState where
  /-- `Wadokei.sun` -/
  sun : SunData
  /-- `Wadokei.state.lastSunCalcDate` (`undefined` before first draw) -/
  lastSunCalcDate : Option (ℤ × ℕ × ℕ)
deriving DecidableEq

/-- The cache step of `draw()` in src/core/wadokei.js:

    if (Wadokei.state.lastSunCalcDate !== today) {
      ComputeSunData(nowTime);
      Wadokei.state.lastSunCalcDate = today;
    }

In this variant `ComputeSunData` (src/unnamed/part_001 and part_002)
returns its record and assigns nothing, and `draw` discards the returned
value, so the branch updates only the date key; `sun` is left as it was. -/
def drawSunStep (computeSunData : Instant → SunData) (now : Instant)
    (st : WState) : WState :=
  if st.lastSunCalcDate = some (localDate now) then st
  else
    let _discarded := computeSunData now
    { sun := st.sun, lastSunCalcDate := some (localDate now) }

/-- One nominal solar-term record of the fixed `SEKki_ORDER` table. -/
structure SekkiTerm where
  /-- 1-based term index -/
  index : ℕ
  /-- term name -/
  name : String
  /-- nominal civil month (1-based) -/
  mo : ℕ
  /-- nominal day of month -/
  d : ℕ
deriving DecidableEq, Repr

/-- A dated entry of a year table built by `buildYearTable`. -/
structure SekkiEntry where
  /-- 1-based term index -/
  index : ℕ
  /-- term name -/
  name : String
  /-- instantiated start date -/
  date : Instant
deriving DecidableEq, Repr

/-- The record returned by `getSekki`; the source's `end` field is named
`stop` here because `end` is reserved. -/
structure SekkiResult where
  /-- term index -/
  index : ℕ
  /-- term name -/
  name : String
  /-- interval start -/
  start : Instant
  /-- interval end (source field `end`) -/
  stop : Instant
deriving DecidableEq, Repr

/-- The fixed table `SEKki_ORDER` of src/unnamed/part_000. -/
def SEKki_ORDER : List SekkiTerm :=
  [ ⟨1, "立春", 2, 4⟩
  , ⟨2, "雨水", 2, 19⟩
  , ⟨3, "啓蟄", 3, 6⟩
  , ⟨4, "春分", 3, 20⟩
  , ⟨5, "清明", 4, 5⟩
  , ⟨6, "穀雨", 4, 20⟩
  , ⟨7, "立夏", 5, 5⟩
  , ⟨8, "小満", 5, 21⟩
  , ⟨9, "芒種", 6, 6⟩
  , ⟨10, "夏至", 6, 21⟩
  , ⟨11, "小暑", 7, 7⟩
  , ⟨12, "大暑", 7, 23⟩
  , ⟨13, "立秋", 8, 8⟩
  , ⟨14, "処暑", 8, 23⟩
  , ⟨15, "白露", 9, 8⟩
  , ⟨16, "秋分", 9, 23⟩
  , ⟨17, "寒露", 10, 8⟩
  , ⟨18, "霜降", 10, 23⟩
  , ⟨19, "立冬", 11, 7⟩
  , ⟨20, "小雪", 11, 22⟩
  , ⟨21, "大雪", 12, 7⟩
  , ⟨22, "冬至", 12, 22⟩
  , ⟨23, "小寒", 1, 6⟩
  , ⟨24, "大寒", 1, 20⟩ ]

/-- `makeDate(year, month, day)`: local midnight of the given civil date
(the source subtracts 1 from the 1-based month for the `Date`
constructor; `Instant` keeps the month 1-based). -/
def makeDate (year : ℤ) (month day : ℕ) : Instant :=
  ⟨year, month, day, 0⟩

/-- The ascending-date comparison used by
`table.sort((a, b) => a.date - b.date)`. -/
def sekkiLE (a b : SekkiEntry) : Prop :=
  key a.date ≤ key b.date

instance : DecidableRel sekkiLE :=
  fun a b => by unfold sekkiLE; infer_instance

instance : IsTrans SekkiEntry sekkiLE :=
  ⟨fun _ _ _ hab hbc => le_trans hab hbc⟩

/-- `buildYearTable(year)` of src/unnamed/part_000: instantiate every
term in `year`, except 小寒/大寒 (`index >= 23`) which go to `year + 1`,
then sort ascending by date.  The JS `Array.prototype.sort` is embedded
as a stable comparison sort; the keys are pairwise distinct, so any
correct sort produces the same list. -/
def buildYearTable (year : ℤ) : List SekkiEntry :=
  List.insertionSort sekkiLE
    (SEKki_ORDER.map (fun t =>
      ⟨t.index, t.name, makeDate (if 23 ≤ t.index then year + 1 else year) t.mo t.d⟩))

/-- Placeholder entry for `List.getD`; the source never indexes out of
range (`(i + 1) % table.length`), so the default is never selected. -/
def sekkiDflt : SekkiEntry :=
  ⟨0, "", ⟨0, 0, 0, 0⟩⟩

/-- The search loop of `getSekki`: return the first `i` with
`table[i].date ≤ now < table[(i+1) % table.length].date`, as a record
(`cur = table[i]`, `next = table[(i+1) % table.length]` are written out). -/
def sekkiScan (now : Instant) : Option SekkiResult :=
  (List.range (buildYearTable now.y).length).findSome? (fun i =>
    if key ((buildYearTable now.y).getD i sekkiDflt).date ≤ key now ∧
        key now < key ((buildYearTable now.y).getD
          ((i + 1) % (buildYearTable now.y).length) sekkiDflt).date then
      some ⟨((buildYearTable now.y).getD i sekkiDflt).index,
            ((buildYearTable now.y).getD i sekkiDflt).name,
            ((buildYearTable now.y).getD i sekkiDflt).date,
            ((buildYearTable now.y).getD
              ((i + 1) % (buildYearTable now.y).length) sekkiDflt).date⟩
    else none)

/-- `getSekki(now)` of src/unnamed/part_000: the interval search, with the
fallback returning the last table entry (closed against `table[0]`). -/
def getSekki (now : Instant) : SekkiResult :=
  match sekkiScan now with
  | some r => r
  | none =>
    ⟨((buildYearTable now.y).getD ((buildYearTable now.y).length - 1) sekkiDflt).index,
     ((buildYearTable now.y).getD ((buildYearTable now.y).length - 1) sekkiDflt).name,
     ((buildYearTable now.y).getD ((buildYearTable now.y).length - 1) sekkiDflt).date,
     ((buildYearTable now.y).getD 0 sekkiDflt).date⟩

/-- The 24 fixed term names, for the totality claim. -/
def sekkiNames : List String :=
  SEKki_ORDER.map SekkiTerm.name

/-- Day-granularity thresholds of the sorted year table, relative to
`year * 33177600000`, in units of 86400000 ms: entry `i` of the sorted
table starts at `cdays[i]` "lexicographic days" into the year (entries 22
and 23 carry the `+384` of the following year); index 24 wraps to the
first entry. -/
def cdays : List ℤ :=
  [36, 51, 70, 84, 101, 116, 133, 149, 166, 181, 199, 215,
   232, 247, 264, 279, 296, 311, 327, 342, 359, 374, 390, 404]

/-- Threshold `i` of the sorted year table as a key offset; `cA 24`
wraps to `cA 0`. -/
def cA (i : ℕ) : ℤ :=
  (cdays.getD i 36) * 86400000

/-- Closed form of the pre-rotation sector angles for
`0 < theta < 2π` (proof helper; established against `anglePre` in
`anglePre_eq`). -/
noncomputable def cfAngle (theta : ℝ) : Zodiac → ℝ
  | .u => -(theta / 2)
  | .tatsu => -(theta / 3)
  | .mi => -(theta / 6)
  | .uma => 0
  | .hitsuji => theta / 6
  | .saru => theta / 3
  | .tori => theta / 2
  | .inu => theta / 3 + π / 3
  | .i => theta / 6 + 2 * π / 3
  | .ne => π
  | .ushi => 4 * π / 3 - theta / 6
  | .tora => 5 * π / 3 - theta / 3

/-- The fixed zodiac reading order 卯 辰 巳 午 未 申 酉 戌 亥 子 丑 寅 as a
cyclic index (the final catch-all is index 11, 寅). -/
def zodiacOrder (i : Fin 12) : Zodiac :=
  match i.val with
  | 0 => .u
  | 1 => .tatsu
  | 2 => .mi
  | 3 => .uma
  | 4 => .hitsuji
  | 5 => .saru
  | 6 => .tori
  | 7 => .inu
  | 8 => .i
  | 9 => .ne
  | 10 => .ushi
  | _ => .tora

/-- Closed form of the rotated sector angles up to multiples of `2π`
(proof helper). -/
noncomputable def cSeq (theta : ℝ) (mode : String) (i : Fin 12) : ℝ :=
  cfAngle theta (zodiacOrder i) + dialShift mode

/-- Congruence of two angles modulo `2π`. -/
def angleCong (a b : ℝ) : Prop :=
  ∃ k : ℤ, a - b = 2 * π * k

/-- Sample sunrise/sunset provider for concrete instances: the sunrise
instant depends on the calendar day of the query. -/
def sampleSunTimes : ℤ → ℕ → ℕ → ℤ × ℤ :=
  fun _ _ d => ((d : ℤ) * 1000000, (d : ℤ) * 1000000 + 36000000)

/-- An altitude provider with no usable sample anywhere (JS `NaN`). -/
def noAltitude : ℤ → Option ℝ :=
  fun _ => none

/-- Cache state holding the 2026-01-01 sun data, keyed to 2026-01-01. -/
noncomputable def sampleState : WState :=
  ⟨ComputeSunData sampleSunTimes noAltitude ⟨2026, 1, 1, 0⟩,
   some (localDate ⟨2026, 1, 1, 0⟩)⟩


/-! ### Arithmetic facts about the JS remainder -/

theorem jsMod_sub_int (x y : ℝ) : ∃ k : ℤ, jsMod x y = x - y * k :=
  ⟨jsTrunc (x / y), rfl⟩

theorem jsMod_nonneg_bounds (x y : ℝ) (hy : 0 < y) (hx : 0 ≤ x) :
    0 ≤ jsMod x y ∧ jsMod x y < y := by
  have hdiv : 0 ≤ x / y := div_nonneg hx hy.le
  have hxy : y * (x / y) = x := by field_simp
  have hfr : x - y * ((⌊x / y⌋ : ℤ) : ℝ) = y * Int.fract (x / y) := by
    rw [Int.fract]
    rw [mul_sub, hxy]
  unfold jsMod jsTrunc
  rw [if_pos hdiv, hfr]
  constructor
  · exact mul_nonneg hy.le (Int.fract_nonneg _)
  · calc y * Int.fract (x / y) < y * 1 :=
          (mul_lt_mul_left hy).mpr (Int.fract_lt_one _)
    _ = y := mul_one y

theorem jsMod_eq_sub_nsmul (x y : ℝ) (hy : 0 < y) (n : ℤ) (hn : 0 ≤ n)
    (hl : (n : ℝ) * y ≤ x) (hr : x < ((n : ℝ) + 1) * y) :
    jsMod x y = x - (n : ℝ) * y := by
  have hx : 0 ≤ x := le_trans (mul_nonneg (by exact_mod_cast hn) hy.le) hl
  have hdiv : 0 ≤ x / y := div_nonneg hx hy.le
  have hfl : ⌊x / y⌋ = n := by
    rw [Int.floor_eq_iff]
    constructor
    · rw [le_div_iff₀ hy]
      exact hl
    · rw [div_lt_iff₀ hy]
      linarith
  unfold jsMod jsTrunc
  rw [if_pos hdiv, hfl]
  ring

theorem jsMod_small (x y : ℝ) (hy : 0 < y) (hl : -y < x) (hr : x < y) :
    jsMod x y = x := by
  rcases le_or_lt 0 x with hx | hx
  · have h := jsMod_eq_sub_nsmul x y hy 0 le_rfl (by simpa using hx) (by simpa using hr)
    simpa using h
  · have hdiv : x / y < 0 := div_neg_of_neg_of_pos hx hy
    have hceil : ⌈x / y⌉ = 0 := by
      rw [Int.ceil_eq_zero_iff, Set.mem_Ioc]
      constructor
      · rw [lt_div_iff₀ hy]
        linarith
      · exact hdiv.le
    unfold jsMod jsTrunc
    rw [if_neg (not_le.mpr hdiv), hceil]
    simp

theorem jsMod_one_sub (x y : ℝ) (hy : 0 < y) (hl : y ≤ x) (hr : x < 2 * y) :
    jsMod x y = x - y := by
  have h := jsMod_eq_sub_nsmul x y hy 1 (by norm_num) (by simpa using hl)
    (by push_cast; linarith)
  simpa using h

theorem jsMod_bounds (x y : ℝ) (hy : 0 < y) : -y < jsMod x y ∧ jsMod x y < y := by
  rcases le_or_lt 0 x with hx | hx
  · have h := jsMod_nonneg_bounds x y hy hx
    exact ⟨by linarith [h.1], h.2⟩
  · have hdiv : x / y < 0 := div_neg_of_neg_of_pos hx hy
    have hxy : y * (x / y) = x := by field_simp
    have hc1 : x / y ≤ ((⌈x / y⌉ : ℤ) : ℝ) := Int.le_ceil _
    have hc2 : ((⌈x / y⌉ : ℤ) : ℝ) < x / y + 1 := Int.ceil_lt_add_one _
    have hm1 : x ≤ y * ((⌈x / y⌉ : ℤ) : ℝ) := by
      calc x = y * (x / y) := hxy.symm
      _ ≤ y * ((⌈x / y⌉ : ℤ) : ℝ) := by
            exact (mul_le_mul_left hy).mpr hc1
    have hm2 : y * ((⌈x / y⌉ : ℤ) : ℝ) < x + y := by
      calc y * ((⌈x / y⌉ : ℤ) : ℝ) < y * (x / y + 1) := (mul_lt_mul_left hy).mpr hc2
      _ = x + y := by rw [mul_add, hxy, mul_one]
    unfold jsMod jsTrunc
    rw [if_neg (not_le.mpr hdiv)]
    constructor
    · linarith
    · linarith

theorem jsMod_add_cancel (x y : ℝ) (hy : 0 < y) (hx : 0 ≤ x) :
    jsMod (x + y) y = jsMod x y := by
  have hdiv : 0 ≤ x / y := div_nonneg hx hy.le
  have hdiv2 : 0 ≤ (x + y) / y := div_nonneg (by linarith) hy.le
  have hsplit : (x + y) / y = x / y + ((1 : ℤ) : ℝ) := by
    push_cast
    field_simp
  unfold jsMod jsTrunc
  rw [if_pos hdiv, if_pos hdiv2, hsplit, Int.floor_add_int]
  push_cast
  ring

theorem specMod_eq (x v : ℝ) (k : ℤ) (h0 : 0 ≤ v) (h1 : v < 2 * π)
    (hk : x = v + 2 * π * k) : specMod x = v := by
  have h2pi : (0 : ℝ) < 2 * π := by positivity
  have hsplit : x / (2 * π) = v / (2 * π) + ((k : ℤ) : ℝ) := by
    rw [hk]
    field_simp
    ring
  have hfl : ⌊v / (2 * π)⌋ = 0 := by
    rw [Int.floor_eq_zero_iff, Set.mem_Ico]
    constructor
    · exact div_nonneg h0 h2pi.le
    · rw [div_lt_one h2pi]
      exact h1
  unfold specMod
  rw [hsplit, Int.floor_add_int, hfl, hk]
  push_cast
  ring

theorem specMod_span (g h c d v : ℝ) (a b : ℤ) (hg : g = c + 2 * π * a)
    (hh : h = d + 2 * π * b) (m : ℤ) (hv : d - c + 2 * π * m = v)
    (h0 : 0 ≤ v) (h1 : v < 2 * π) :
    specMod (h - g + 2 * π) = v := by
  apply specMod_eq _ _ (b - a - m + 1) h0 h1
  rw [hg, hh, ← hv]
  push_cast
  ring

/-! ### Closed forms of the backplane geometry for `0 < θ < 2π` -/

theorem anglePre_eq (t : ℝ) (h1 : 0 < t) (h2 : t < 2 * π) (z : Zodiac) :
    anglePre t z = cfAngle t z := by
  have hpi := Real.pi_pos
  have h2pi : (0 : ℝ) < 2 * π := by linarith
  cases z with
  | u => simp only [anglePre, cfAngle]
  | uma => simp only [anglePre, cfAngle]
  | ne => simp only [anglePre, cfAngle]
  | tori => simp only [anglePre, cfAngle]
  | tatsu =>
    simp only [anglePre, cfAngle]
    rw [show (0 : ℝ) - -(t / 2) + 2 * π = t / 2 + 2 * π by ring]
    rw [jsMod_one_sub (t / 2 + 2 * π) (2 * π) h2pi (by linarith) (by linarith)]
    rw [show -(t / 2) + (t / 2 + 2 * π - 2 * π) / 3 = -(t / 3) by ring]
    exact jsMod_small _ _ h2pi (by linarith) (by linarith)
  | mi =>
    simp only [anglePre, cfAngle]
    rw [show (0 : ℝ) - -(t / 2) + 2 * π = t / 2 + 2 * π by ring]
    rw [jsMod_one_sub (t / 2 + 2 * π) (2 * π) h2pi (by linarith) (by linarith)]
    rw [show -(t / 2) + 2 * (t / 2 + 2 * π - 2 * π) / 3 = -(t / 6) by ring]
    exact jsMod_small _ _ h2pi (by linarith) (by linarith)
  | hitsuji =>
    simp only [anglePre, cfAngle]
    rw [show t / 2 - 0 + 2 * π = t / 2 + 2 * π by ring]
    rw [jsMod_one_sub (t / 2 + 2 * π) (2 * π) h2pi (by linarith) (by linarith)]
    rw [show (0 : ℝ) + (t / 2 + 2 * π - 2 * π) / 3 = t / 6 by ring]
    exact jsMod_small _ _ h2pi (by linarith) (by linarith)
  | saru =>
    simp only [anglePre, cfAngle]
    rw [show t / 2 - 0 + 2 * π = t / 2 + 2 * π by ring]
    rw [jsMod_one_sub (t / 2 + 2 * π) (2 * π) h2pi (by linarith) (by linarith)]
    rw [show (0 : ℝ) + 2 * (t / 2 + 2 * π - 2 * π) / 3 = t / 3 by ring]
    exact jsMod_small _ _ h2pi (by linarith) (by linarith)
  | inu =>
    simp only [anglePre, cfAngle]
    rw [show π - t / 2 + 2 * π = 3 * π - t / 2 by ring]
    rw [jsMod_one_sub (3 * π - t / 2) (2 * π) h2pi (by linarith) (by linarith)]
    rw [show t / 2 + (3 * π - t / 2 - 2 * π) / 3 = t / 3 + π / 3 by ring]
    exact jsMod_small _ _ h2pi (by linarith) (by linarith)
  | i =>
    simp only [anglePre, cfAngle]
    rw [show π - t / 2 + 2 * π = 3 * π - t / 2 by ring]
    rw [jsMod_one_sub (3 * π - t / 2) (2 * π) h2pi (by linarith) (by linarith)]
    rw [show t / 2 + 2 * (3 * π - t / 2 - 2 * π) / 3 = t / 6 + 2 * π / 3 by ring]
    exact jsMod_small _ _ h2pi (by linarith) (by linarith)
  | ushi =>
    simp only [anglePre, cfAngle]
    rw [show -(t / 2) - π + 2 * π = π - t / 2 by ring]
    rw [jsMod_small (π - t / 2) (2 * π) h2pi (by linarith) (by linarith)]
    rw [show π + (π - t / 2) / 3 = 4 * π / 3 - t / 6 by ring]
    exact jsMod_small _ _ h2pi (by linarith) (by linarith)
  | tora =>
    simp only [anglePre, cfAngle]
    rw [show -(t / 2) - π + 2 * π = π - t / 2 by ring]
    rw [jsMod_small (π - t / 2) (2 * π) h2pi (by linarith) (by linarith)]
    rw [show π + 2 * (π - t / 2) / 3 = 5 * π / 3 - t / 3 by ring]
    exact jsMod_small _ _ h2pi (by linarith) (by linarith)

theorem dialShift_nonneg (m : String) : 0 ≤ dialShift m := by
  unfold dialShift
  split
  · exact Real.pi_pos.le
  · exact le_rfl

theorem dialShift_lt (m : String) : dialShift m < 2 * π := by
  have hpi := Real.pi_pos
  unfold dialShift
  split
  · linarith
  · linarith

theorem cfAngle_bounds (t : ℝ) (h1 : 0 < t) (h2 : t < 2 * π) (z : Zodiac) :
    -π < cfAngle t z ∧ cfAngle t z < 2 * π := by
  have hpi := Real.pi_pos
  cases z <;> (simp only [cfAngle]; constructor <;> linarith)

theorem anglePost_eq_jsMod (t : ℝ) (m : String) (h1 : 0 < t) (h2 : t < 2 * π)
    (z : Zodiac) :
    anglePost t m z = jsMod (cfAngle t z + dialShift m + 2 * π) (2 * π) := by
  unfold anglePost
  rw [anglePre_eq t h1 h2 z]

theorem anglePost_bounds (t : ℝ) (m : String) (h1 : 0 < t) (h2 : t < 2 * π)
    (z : Zodiac) :
    0 ≤ anglePost t m z ∧ anglePost t m z < 2 * π := by
  have hpi := Real.pi_pos
  have h2pi : (0 : ℝ) < 2 * π := by linarith
  rw [anglePost_eq_jsMod t m h1 h2 z]
  apply jsMod_nonneg_bounds _ _ h2pi
  have hb := (cfAngle_bounds t h1 h2 z).1
  have hs := dialShift_nonneg m
  linarith

theorem anglePost_cong (t : ℝ) (m : String) (h1 : 0 < t) (h2 : t < 2 * π)
    (z : Zodiac) :
    ∃ k : ℤ, anglePost t m z = cfAngle t z + dialShift m + 2 * π * k := by
  rw [anglePost_eq_jsMod t m h1 h2 z]
  obtain ⟨j, hj⟩ := jsMod_sub_int (cfAngle t z + dialShift m + 2 * π) (2 * π)
  refine ⟨1 - j, ?_⟩
  rw [hj]
  push_cast
  ring

theorem cSeq_strictMono (t : ℝ) (m : String) (h1 : 0 < t) (h2 : t < 2 * π) :
    StrictMono (cSeq t m) := by
  have hpi := Real.pi_pos
  rw [Fin.strictMono_iff_lt_succ]
  intro i
  fin_cases i <;>
    (simp only [cSeq, zodiacOrder, cfAngle, Fin.succ, Fin.castSucc, Fin.castAdd,
      Fin.castLE, Fin.isValue]
     norm_num
     linarith)

/-- Claim C3: for every corrected day length with `0 < thetaDay < 2π`, the
sector angles computed by `drawBackplane` before the dial-mode rotation
satisfy 午 = 0, 子 = π, 卯 ≡ −θ/2, 酉 ≡ +θ/2 (mod 2π), and every arc
卯→午, 午→酉, 酉→子, 子→卯, of width `(end − start + 2π) mod 2π`, carries
its two intermediate zodiac positions at exactly 1/3 and 2/3 of the arc
from the arc's start anchor. -/
theorem c3_sector_anchors_trisection (t : ℝ) (h1 : 0 < t) (h2 : t < 2 * π) :
    anglePre t .uma = 0 ∧
    anglePre t .ne = π ∧
    angleCong (anglePre t .u) (-(t / 2)) ∧
    angleCong (anglePre t .tori) (t / 2) ∧
    angleCong (anglePre t .tatsu)
      (anglePre t .u + specMod (anglePre t .uma - anglePre t .u + 2 * π) / 3) ∧
    angleCong (anglePre t .mi)
      (anglePre t .u + 2 * specMod (anglePre t .uma - anglePre t .u + 2 * π) / 3) ∧
    angleCong (anglePre t .hitsuji)
      (anglePre t .uma + specMod (anglePre t .tori - anglePre t .uma + 2 * π) / 3) ∧
    angleCong (anglePre t .saru)
      (anglePre t .uma + 2 * specMod (anglePre t .tori - anglePre t .uma + 2 * π) / 3) ∧
    angleCong (anglePre t .inu)
      (anglePre t .tori + specMod (anglePre t .ne - anglePre t .tori + 2 * π) / 3) ∧
    angleCong (anglePre t .i)
      (anglePre t .tori + 2 * specMod (anglePre t .ne - anglePre t .tori + 2 * π) / 3) ∧
    angleCong (anglePre t .ushi)
      (anglePre t .ne + specMod (anglePre t .u - anglePre t .ne + 2 * π) / 3) ∧
    angleCong (anglePre t .tora)
      (anglePre t .ne + 2 * specMod (anglePre t .u - anglePre t .ne + 2 * π) / 3) := by
  have hpi := Real.pi_pos
  simp only [angleCong, anglePre_eq t h1 h2, cfAngle]
  have s1 : specMod (0 - -(t / 2) + 2 * π) = t / 2 :=
    specMod_eq _ _ 1 (by linarith) (by linarith) (by push_cast; ring)
  have s2 : specMod (t / 2 - 0 + 2 * π) = t / 2 :=
    specMod_eq _ _ 1 (by linarith) (by linarith) (by push_cast; ring)
  have s3 : specMod (π - t / 2 + 2 * π) = π - t / 2 :=
    specMod_eq _ _ 1 (by linarith) (by linarith) (by push_cast; ring)
  have s4 : specMod (-(t / 2) - π + 2 * π) = π - t / 2 :=
    specMod_eq _ _ 0 (by linarith) (by linarith) (by push_cast; ring)
  rw [s1, s2, s3, s4]
  exact ⟨trivial, trivial, ⟨0, by push_cast; ring⟩, ⟨0, by push_cast; ring⟩,
    ⟨0, by push_cast; ring⟩, ⟨0, by push_cast; ring⟩, ⟨0, by push_cast; ring⟩,
    ⟨0, by push_cast; ring⟩, ⟨0, by push_cast; ring⟩, ⟨0, by push_cast; ring⟩,
    ⟨0, by push_cast; ring⟩, ⟨0, by push_cast; ring⟩⟩

/-- Witness for C3 at the equinox day length `thetaDay = π`. -/
theorem c3_sector_anchors_trisection_witness :
    anglePre π Zodiac.uma = 0 ∧ anglePre π Zodiac.ne = π ∧
    angleCong (anglePre π Zodiac.u) (-(π / 2)) := by
  have h := c3_sector_anchors_trisection π Real.pi_pos (by linarith [Real.pi_pos])
  exact ⟨h.1, h.2.1, h.2.2.1⟩

theorem spanPost_eq_of (t : ℝ) (m : String) (h1 : 0 < t) (h2 : t < 2 * π)
    (z1 z2 : Zodiac) (v : ℝ) (w : ℤ)
    (hv : cfAngle t z2 - cfAngle t z1 + 2 * π * w = v)
    (hv0 : 0 ≤ v) (hv1 : v < 2 * π) :
    specMod (anglePost t m z2 - anglePost t m z1 + 2 * π) = v := by
  obtain ⟨a, ha⟩ := anglePost_cong t m h1 h2 z1
  obtain ⟨b, hb⟩ := anglePost_cong t m h1 h2 z2
  exact specMod_span _ _ (cfAngle t z1 + dialShift m) (cfAngle t z2 + dialShift m)
    _ a b ha hb w (by linarith) hv0 hv1

theorem spanPost_eq (t : ℝ) (m : String) (h1 : 0 < t) (h2 : t < 2 * π)
    (i : Fin 12) :
    specMod (anglePost t m (zodiacOrder (i + 1)) - anglePost t m (zodiacOrder i) + 2 * π)
      = (if (i : ℕ) < 6 then t / 6 else π / 3 - t / 6) := by
  have hpi := Real.pi_pos
  fin_cases i
  · exact spanPost_eq_of t m h1 h2 .u .tatsu (t / 6) 0
      (by simp only [cfAngle]; ring) (by linarith) (by linarith)
  · exact spanPost_eq_of t m h1 h2 .tatsu .mi (t / 6) 0
      (by simp only [cfAngle]; ring) (by linarith) (by linarith)
  · exact spanPost_eq_of t m h1 h2 .mi .uma (t / 6) 0
      (by simp only [cfAngle]; ring) (by linarith) (by linarith)
  · exact spanPost_eq_of t m h1 h2 .uma .hitsuji (t / 6) 0
      (by simp only [cfAngle]; ring) (by linarith) (by linarith)
  · exact spanPost_eq_of t m h1 h2 .hitsuji .saru (t / 6) 0
      (by simp only [cfAngle]; ring) (by linarith) (by linarith)
  · exact spanPost_eq_of t m h1 h2 .saru .tori (t / 6) 0
      (by simp only [cfAngle]; ring) (by linarith) (by linarith)
  · exact spanPost_eq_of t m h1 h2 .tori .inu (π / 3 - t / 6) 0
      (by simp only [cfAngle]; ring) (by linarith) (by linarith)
  · exact spanPost_eq_of t m h1 h2 .inu .i (π / 3 - t / 6) 0
      (by simp only [cfAngle]; ring) (by linarith) (by linarith)
  · exact spanPost_eq_of t m h1 h2 .i .ne (π / 3 - t / 6) 0
      (by simp only [cfAngle]; ring) (by linarith) (by linarith)
  · exact spanPost_eq_of t m h1 h2 .ne .ushi (π / 3 - t / 6) 0
      (by simp only [cfAngle]; ring) (by linarith) (by linarith)
  · exact spanPost_eq_of t m h1 h2 .ushi .tora (π / 3 - t / 6) 0
      (by simp only [cfAngle]; ring) (by linarith) (by linarith)
  · exact spanPost_eq_of t m h1 h2 .tora .u (π / 3 - t / 6) 1
      (by simp only [cfAngle]; ring) (by linarith) (by linarith)

/-- Claim C7: for every corrected day length with `0 < thetaDay < 2π` and
either dial mode, the twelve sector center angles returned by
`drawBackplane` lie in `[0, 2π)`, are pairwise distinct, are monotonically
increasing modulo 2π in zodiac order (every circular span
`(next − prev + 2π) mod 2π` is positive), and the twelve successive spans
sum to exactly `2π`. -/
theorem c7_sector_angle_invariants (t : ℝ) (m : String)
    (h1 : 0 < t) (h2 : t < 2 * π) :
    (∀ z : Zodiac, 0 ≤ anglePost t m z ∧ anglePost t m z < 2 * π) ∧
    (∀ i j : Fin 12, i ≠ j →
      anglePost t m (zodiacOrder i) ≠ anglePost t m (zodiacOrder j)) ∧
    (∀ i : Fin 12,
      0 < specMod (anglePost t m (zodiacOrder (i + 1)) -
            anglePost t m (zodiacOrder i) + 2 * π)) ∧
    (∑ i : Fin 12,
      specMod (anglePost t m (zodiacOrder (i + 1)) -
        anglePost t m (zodiacOrder i) + 2 * π)) = 2 * π := by
  have hpi := Real.pi_pos
  have hmono := cSeq_strictMono t m h1 h2
  refine ⟨anglePost_bounds t m h1 h2, ?_, ?_, ?_⟩
  · intro i j hne heq
    obtain ⟨a, ha⟩ := anglePost_cong t m h1 h2 (zodiacOrder i)
    obtain ⟨b, hb⟩ := anglePost_cong t m h1 h2 (zodiacOrder j)
    have hci : cSeq t m i = cfAngle t (zodiacOrder i) + dialShift m := rfl
    have hcj : cSeq t m j = cfAngle t (zodiacOrder j) + dialShift m := rfl
    have hw : cSeq t m i - cSeq t m j = 2 * π * ((b : ℝ) - (a : ℝ)) := by
      rw [hci, hcj]
      have := heq
      rw [ha, hb] at this
      linarith
    have hwin : cSeq t m (Fin.last 11) - cSeq t m 0 = 5 * π / 3 + t / 6 := by
      have hlast : cSeq t m (Fin.last 11) = 5 * π / 3 - t / 3 + dialShift m := by
        simp only [cSeq, zodiacOrder, Fin.last, cfAngle]
      have hzero : cSeq t m 0 = -(t / 2) + dialShift m := by
        simp only [cSeq, zodiacOrder, Fin.isValue, Fin.val_zero, cfAngle]
      rw [hlast, hzero]
      ring
    have hloi : cSeq t m 0 ≤ cSeq t m i := hmono.monotone (Fin.zero_le i)
    have hhii : cSeq t m i ≤ cSeq t m (Fin.last 11) := hmono.monotone (Fin.le_last i)
    have hloj : cSeq t m 0 ≤ cSeq t m j := hmono.monotone (Fin.zero_le j)
    have hhij : cSeq t m j ≤ cSeq t m (Fin.last 11) := hmono.monotone (Fin.le_last j)
    have hb1 : ((b : ℝ) - (a : ℝ)) < 1 := by nlinarith
    have hb2 : -1 < ((b : ℝ) - (a : ℝ)) := by nlinarith
    have hba : b - a = 0 := by
      have p1 : (b : ℝ) - (a : ℝ) = ((b - a : ℤ) : ℝ) := by push_cast; ring
      rw [p1] at hb1 hb2
      have q1 : b - a < 1 := by exact_mod_cast hb1
      have q2 : -1 < b - a := by exact_mod_cast hb2
      omega
    have hceq : cSeq t m i = cSeq t m j := by
      have : ((b : ℝ) - (a : ℝ)) = 0 := by
        have : ((b - a : ℤ) : ℝ) = 0 := by exact_mod_cast hba
        push_cast at this
        linarith
      rw [this] at hw
      linarith
    exact hne (hmono.injective hceq)
  · intro i
    rw [spanPost_eq t m h1 h2 i]
    split
    · linarith
    · linarith
  · rw [Finset.sum_congr rfl (fun i _ => spanPost_eq t m h1 h2 i)]
    norm_num [Fin.sum_univ_succ]
    ring

/-- Witness for C7 at `thetaDay = π`, dial mode 午上. -/
theorem c7_sector_angle_invariants_witness :
    (∑ i : Fin 12,
      specMod (anglePost π "午上" (zodiacOrder (i + 1)) -
        anglePost π "午上" (zodiacOrder i) + 2 * π)) = 2 * π :=
  (c7_sector_angle_invariants π "午上" Real.pi_pos
    (by linarith [Real.pi_pos])).2.2.2

theorem mid_bounds (a b : ℝ) : -(2 * π) < mid a b ∧ mid a b < 2 * π := by
  have hpi := Real.pi_pos
  have h2pi : (0 : ℝ) < 2 * π := by linarith
  unfold mid
  exact jsMod_bounds _ _ h2pi

theorem angleTickPost_closes (t : ℝ) (m : String) :
    (angleTickPost t m).getD 12 0 = (angleTickPost t m).getD 0 0 := by
  have hpi := Real.pi_pos
  have h2pi : (0 : ℝ) < 2 * π := by linarith
  show jsMod (mid (anglePre t .tora) (anglePre t .u) + 2 * π + dialShift m + 2 * π)
        (2 * π)
      = jsMod (mid (anglePre t .tora) (anglePre t .u) + dialShift m + 2 * π) (2 * π)
  rw [show mid (anglePre t .tora) (anglePre t .u) + 2 * π + dialShift m + 2 * π
        = (mid (anglePre t .tora) (anglePre t .u) + dialShift m + 2 * π) + 2 * π by ring]
  apply jsMod_add_cancel _ _ h2pi
  have hmb := (mid_bounds (anglePre t .tora) (anglePre t .u)).1
  have hs := dialShift_nonneg m
  linarith

/-- Counterexample to claim C2: at `thetaDay = π` with dial mode 午上, the
tick sequence returned to the consumer (after the dial-mode rotation) has
its thirteenth element equal to its first, not to its first plus 2π — the
final modulo reduction removes the `+2π` closure. -/
theorem c2_counterexample :
    ¬ ((angleTickPost π "午上").getD 12 0 = (angleTickPost π "午上").getD 0 0 + 2 * π) := by
  intro h
  rw [angleTickPost_closes π "午上"] at h
  have hpi := Real.pi_pos
  linarith

/-- Claim C2 as amended: for every input the tick sequence has exactly 13
elements; the thirteenth equals the first plus 2π **before** the dial-mode
reduction; as returned to the consumer after the dial-mode rotation, the
thirteenth equals the first exactly (both reduced into `[0, 2π)`), the
`+2π` separation being removed by the final `% 2π`. -/
theorem c2_tick_closure_amended (t : ℝ) (m : String) :
    (angleTickPost t m).length = 13 ∧
    (angleTickPre t).getD 12 0 = (angleTickPre t).getD 0 0 + 2 * π ∧
    (angleTickPost t m).getD 12 0 = (angleTickPost t m).getD 0 0 := by
  refine ⟨?_, rfl, angleTickPost_closes t m⟩
  simp [angleTickPost, angleTickPre]

/-- Claim C8: `drawBackplane` returns
`tickShift = (correctedNoon − civilNoon) · 2π/86400000` with
`correctedNoon` the midpoint of the corrected dawn `tU` and dusk `tY` and
`civilNoon` the 12:00 local instant of the sunrise's day (`noonMs`); the
shift enters the time-of-day hand angle additively via `drawHand`, while
the sector/tick geometry depends on `(tU, tY)` only through the day span
`tY − tU` — translating both corrected boundaries (which moves
`correctedNoon`, hence `tickShift`) leaves every sector and tick angle
unchanged, and the geometry takes no `noonMs` input at all. -/
theorem c8_tick_shift_only_hand (tU tY noonMs c : ℤ) (m : String) (s : ℕ) :
    tickShiftOf tU tY noonMs
        = (((tU : ℝ) + (tY : ℝ)) / 2 - (noonMs : ℝ)) * (2 * π / 86400000) ∧
    drawClockHandAngle s m (tickShiftOf tU tY noonMs)
        = (s : ℝ) / 86400 * (2 * π) + (if m = "午上" then π / 2 else -(π / 2))
          + tickShiftOf tU tY noonMs + π / 2 ∧
    drawBackplaneGeom (tU + c) (tY + c) m = drawBackplaneGeom tU tY m := by
  refine ⟨by unfold tickShiftOf; ring, rfl, ?_⟩
  unfold drawBackplaneGeom
  have h : thetaDayOf (tU + c) (tY + c) = thetaDayOf tU tY := by
    unfold thetaDayOf
    push_cast
    ring_nf
  rw [h]

/-! ### The twilight locator -/

theorem findAltitudeTime1min_none {F : Type} [LinearOrderedField F]
    (start endT : ℤ) (targetAlt : F) :
    findAltitudeTime1min start endT targetAlt (fun _ => none) = none := by
  unfold findAltitudeTime1min
  have h : ∀ (l : List ℤ) (acc : Option (ℤ × F)),
      l.foldl (twilightStep targetAlt (fun _ => none)) acc = acc := by
    intro l
    induction l with
    | nil => intro acc; rfl
    | cons a l ih =>
      intro acc
      rw [List.foldl_cons, ih]
      rfl
  rw [h]
  rfl

theorem scanInstants_hour (start : ℤ) :
    scanInstants start (start + 3600000)
      = (List.range 61).map (fun k : ℕ => start + 60000 * (k : ℤ)) := by
  unfold scanInstants
  rw [if_pos (by omega : start ≤ start + 3600000)]
  have h : (start + 3600000 - start).toNat / 60000 + 1 = 61 := by omega
  rw [h]

theorem scanInstants_hour_cons (start : ℤ) :
    scanInstants start (start + 3600000)
      = start :: (List.range 60).map (fun k : ℕ => start + 60000 * ((k : ℤ) + 1)) := by
  rw [scanInstants_hour, List.range_succ_eq_map, List.map_cons, List.map_map]
  have h0 : start + 60000 * ((0 : ℕ) : ℤ) = start := by norm_num
  have h1 : (fun k : ℕ => start + 60000 * (k : ℤ)) ∘ Nat.succ
      = (fun k : ℕ => start + 60000 * ((k : ℤ) + 1)) := by
    funext a
    simp only [Function.comp_apply, Nat.succ_eq_add_one]
    push_cast
    ring
  rw [h0, h1]

theorem scanInstants_hour_sorted (start : ℤ) :
    (scanInstants start (start + 3600000)).Pairwise (· < ·) := by
  rw [scanInstants_hour]
  refine (List.pairwise_lt_range 61).map _ ?_
  intro a b hab
  omega

theorem twilightStep_foldl {F : Type} [LinearOrderedField F] (target : F) (f : ℤ → F) :
    ∀ (l : List ℤ) (b : ℤ), (∀ u ∈ l, b < u) → l.Pairwise (· < ·) →
    ∃ t, l.foldl (twilightStep target (fun u => some (f u))) (some (b, |f b - target|))
          = some (t, |f t - target|)
      ∧ (t = b ∨ t ∈ l)
      ∧ |f t - target| ≤ |f b - target|
      ∧ (∀ u ∈ l, |f t - target| ≤ |f u - target|)
      ∧ (|f t - target| = |f b - target| → t = b)
      ∧ (∀ u ∈ l, |f t - target| = |f u - target| → t ≤ u) := by
  intro l
  induction l with
  | nil =>
    intro b _ _
    exact ⟨b, rfl, Or.inl rfl, le_rfl, by simp, fun _ => rfl, by simp⟩
  | cons u l ih =>
    intro b hbl hs
    have hbu : b < u := hbl u (List.mem_cons_self u l)
    have hul : ∀ v ∈ l, u < v := (List.pairwise_cons.mp hs).1
    have hsl : l.Pairwise (· < ·) := (List.pairwise_cons.mp hs).2
    rw [List.foldl_cons]
    by_cases hcmp : |f u - target| < |f b - target|
    · have hstep : twilightStep target (fun v => some (f v)) (some (b, |f b - target|)) u
          = some (u, |f u - target|) := by
        simp [twilightStep, hcmp]
      rw [hstep]
      obtain ⟨t, h1, h2, h3, h4, h5, h6⟩ := ih u hul hsl
      refine ⟨t, h1, ?_, by linarith, ?_, ?_, ?_⟩
      · rcases h2 with h | h
        · exact Or.inr (h ▸ List.mem_cons_self u l)
        · exact Or.inr (List.mem_cons_of_mem u h)
      · intro v hv
        rcases List.mem_cons.mp hv with h | h
        · rw [h]
          exact h3
        · exact h4 v h
      · intro heq
        exfalso
        linarith
      · intro v hv heq
        rcases List.mem_cons.mp hv with h | h
        · subst h
          exact le_of_eq (h5 heq)
        · exact h6 v h heq
    · have hstep : twilightStep target (fun v => some (f v)) (some (b, |f b - target|)) u
          = some (b, |f b - target|) := by
        simp [twilightStep, hcmp]
      rw [hstep]
      obtain ⟨t, h1, h2, h3, h4, h5, h6⟩ :=
        ih b (fun v hv => hbl v (List.mem_cons_of_mem u hv)) hsl
      push_neg at hcmp
      refine ⟨t, h1, ?_, h3, ?_, h5, ?_⟩
      · rcases h2 with h | h
        · exact Or.inl h
        · exact Or.inr (List.mem_cons_of_mem u h)
      · intro v hv
        rcases List.mem_cons.mp hv with h | h
        · rw [h]
          linarith
        · exact h4 v h
      · intro v hv heq
        rcases List.mem_cons.mp hv with h | h
        · subst h
          have h7 : |f t - target| = |f b - target| := le_antisymm h3 (by linarith)
          rw [h5 h7]
          exact hbu.le
        · exact h6 v h heq

/-- Claim C6: `findAltitudeTime1min` over the one-hour window scans exactly
the 61 instants `start, start + 1 min, …, start + 60 min` (both ends
inclusive) and, when the provider reports an altitude for every sample,
returns the scanned instant of minimal `|altitude − target|` with ties
broken by the earliest instant; in particular an exact hit at the window's
midpoint that is matched nowhere earlier is returned. -/
theorem c6_locator_scan_argmin (start : ℤ) (f : ℤ → ℚ) (targetAlt : ℚ) :
    scanInstants start (start + 3600000)
        = (List.range 61).map (fun k : ℕ => start + 60000 * (k : ℤ)) ∧
    (∃ t, findAltitudeTime1min start (start + 3600000) targetAlt (fun u => some (f u))
            = some t
        ∧ t ∈ scanInstants start (start + 3600000)
        ∧ (∀ u ∈ scanInstants start (start + 3600000),
            |f t - targetAlt| ≤ |f u - targetAlt|)
        ∧ (∀ u ∈ scanInstants start (start + 3600000),
            |f u - targetAlt| = |f t - targetAlt| → t ≤ u)) ∧
    ((f (start + 1800000) = targetAlt ∧
        (∀ u ∈ scanInstants start (start + 3600000),
          u ≠ start + 1800000 → f u ≠ targetAlt)) →
      findAltitudeTime1min start (start + 3600000) targetAlt (fun u => some (f u))
        = some (start + 1800000)) := by
  have hshape := scanInstants_hour_cons start
  have hsorted := scanInstants_hour_sorted start
  have hb : ∀ u ∈ (List.range 60).map (fun k : ℕ => start + 60000 * ((k : ℤ) + 1)),
      start < u := by
    intro u hu
    obtain ⟨k, _, rfl⟩ := List.mem_map.mp hu
    have hk : (0 : ℤ) ≤ (k : ℤ) := Int.ofNat_nonneg k
    nlinarith
  have hpl : ((List.range 60).map
      (fun k : ℕ => start + 60000 * ((k : ℤ) + 1))).Pairwise (· < ·) := by
    rw [hshape] at hsorted
    exact (List.pairwise_cons.mp hsorted).2
  obtain ⟨t, h1, h2, h3, h4, h5, h6⟩ := twilightStep_foldl targetAlt f
    ((List.range 60).map (fun k : ℕ => start + 60000 * ((k : ℤ) + 1))) start hb hpl
  have hres : findAltitudeTime1min start (start + 3600000) targetAlt
      (fun u => some (f u)) = some t := by
    unfold findAltitudeTime1min
    rw [hshape, List.foldl_cons]
    have hfirst : twilightStep targetAlt (fun u => some (f u)) none start
        = some (start, |f start - targetAlt|) := rfl
    rw [hfirst, h1]
    rfl
  have hmem : t ∈ scanInstants start (start + 3600000) := by
    rw [hshape]
    rcases h2 with h | h
    · rw [h]
      exact List.mem_cons_self _ _
    · exact List.mem_cons_of_mem _ h
  have hminall : ∀ u ∈ scanInstants start (start + 3600000),
      |f t - targetAlt| ≤ |f u - targetAlt| := by
    intro u hu
    rw [hshape] at hu
    rcases List.mem_cons.mp hu with h | h
    · rw [h]
      exact h3
    · exact h4 u h
  have htieall : ∀ u ∈ scanInstants start (start + 3600000),
      |f u - targetAlt| = |f t - targetAlt| → t ≤ u := by
    intro u hu heq
    rw [hshape] at hu
    rcases List.mem_cons.mp hu with h | h
    · rw [h]
      rw [h] at heq
      exact le_of_eq (h5 heq.symm)
    · exact h6 u h heq.symm
  refine ⟨scanInstants_hour start, ⟨t, hres, hmem, hminall, htieall⟩, ?_⟩
  rintro ⟨hmid, honly⟩
  have hmidmem : start + 1800000 ∈ scanInstants start (start + 3600000) := by
    rw [scanInstants_hour start]
    refine List.mem_map.mpr ⟨30, ?_, by push_cast; ring⟩
    exact List.mem_range.mpr (by norm_num)
  have h0 : |f (start + 1800000) - targetAlt| = 0 := by
    rw [hmid]
    simp
  have hle : |f t - targetAlt| ≤ 0 := by
    have := hminall (start + 1800000) hmidmem
    rw [h0] at this
    exact this
  have hz : |f t - targetAlt| = 0 := le_antisymm hle (abs_nonneg _)
  have hft : f t = targetAlt := by
    rwa [abs_eq_zero, sub_eq_zero] at hz
  have hteq : t = start + 1800000 := by
    by_contra hne
    exact honly t hmem hne hft
  rw [← hteq]
  exact hres

/-- Witness for C6: a provider hitting the target exactly at the midpoint
sample (minute 30) of the window `[0, 3600000]` makes the locator return
the midpoint instant. -/
theorem c6_locator_scan_argmin_witness :
    findAltitudeTime1min 0 (0 + 3600000) (0 : ℚ)
        (fun u => some (if u = 0 + 1800000 then (0 : ℚ) else 1))
      = some (0 + 1800000) := by
  apply (c6_locator_scan_argmin 0
    (fun u => if u = 0 + 1800000 then (0 : ℚ) else 1) 0).2.2
  constructor
  · norm_num
  · decide

/-- Claim C1 (behaviour at the failing input): when the locator produces
no instant (`null` — e.g. every altitude sample is `NaN`), the caller in
`drawBackplane` does **not** fall back to the uncorrected boundaries.
JS coerces `null` to 0 in `sunriseDate - ake` and `kure - sunsetDate`, so
with sunrise 1767139200000 and sunset 1767175200000 the corrected dawn
becomes `tU = sunrise − (sunrise − 0) = 0` (the epoch) and the corrected
dusk `tY = 0`, and the resulting `tickShift` is not zero. -/
theorem c1_no_twilight_null_coercion :
    tUOf 1767139200000 noAltitude = 0 ∧
    tYOf 1767175200000 noAltitude = 0 ∧
    tUOf 1767139200000 noAltitude ≠ 1767139200000 ∧
    tYOf 1767175200000 noAltitude ≠ 1767175200000 ∧
    tickShiftOf (tUOf 1767139200000 noAltitude) (tYOf 1767175200000 noAltitude)
        1767157200000 ≠ 0 := by
  have hT : tUOf 1767139200000 noAltitude = 0 := by
    unfold tUOf akeOf jsDateNum noAltitude
    rw [findAltitudeTime1min_none]
    norm_num
  have hY : tYOf 1767175200000 noAltitude = 0 := by
    unfold tYOf kureOf jsDateNum noAltitude
    rw [findAltitudeTime1min_none]
    norm_num
  refine ⟨hT, hY, by rw [hT]; norm_num, by rw [hY]; norm_num, ?_⟩
  rw [hT, hY]
  unfold tickShiftOf
  push_cast
  intro h
  rcases mul_eq_zero.mp h with h1 | h1
  · norm_num at h1
  · rw [div_eq_zero_iff] at h1
    rcases h1 with h2 | h2
    · linarith [Real.pi_pos]
    · norm_num at h2

/-- Claim C9: `ComputeSunData` normalizes its input to the local calendar
day (`calcDate = new Date(getFullYear, getMonth, getDate)`): two query
instants on the same local date yield identical results. -/
theorem c9_compute_sun_normalizes (g : ℤ → ℕ → ℕ → ℤ × ℤ)
    (alt : ℤ → Option ℝ) (d1 d2 : Instant)
    (hy : d1.y = d2.y) (hm : d1.mo = d2.mo) (hd : d1.d = d2.d) :
    ComputeSunData g alt d1 = ComputeSunData g alt d2 := by
  unfold ComputeSunData
  rw [hy, hm, hd]

/-- Witness for C9: two instants of 2026-03-10 (different times of day)
yield the same sun data. -/
theorem c9_compute_sun_normalizes_witness :
    ComputeSunData sampleSunTimes noAltitude ⟨2026, 3, 10, 111⟩
      = ComputeSunData sampleSunTimes noAltitude ⟨2026, 3, 10, 222⟩ :=
  c9_compute_sun_normalizes sampleSunTimes noAltitude _ _ rfl rfl rfl

/-- Claim C5 (behaviour at the failing input): the cache step of `draw`
returns the cached state unchanged when the local date matches the key
(first conjunct — this half of the claim holds), but on a date change it
discards the freshly computed sun data: the exposed `Wadokei.sun` still
holds the previous day's record and differs from `ComputeSunData` of the
new date (remaining conjuncts). -/
theorem c5_cache_discards_recompute :
    drawSunStep (ComputeSunData sampleSunTimes noAltitude) ⟨2026, 1, 1, 4321⟩
        sampleState = sampleState ∧
    (drawSunStep (ComputeSunData sampleSunTimes noAltitude) ⟨2026, 1, 2, 0⟩
        sampleState).lastSunCalcDate = some (localDate ⟨2026, 1, 2, 0⟩) ∧
    (drawSunStep (ComputeSunData sampleSunTimes noAltitude) ⟨2026, 1, 2, 0⟩
        sampleState).sun = sampleState.sun ∧
    (drawSunStep (ComputeSunData sampleSunTimes noAltitude) ⟨2026, 1, 2, 0⟩
        sampleState).sun.sunrise
      ≠ (ComputeSunData sampleSunTimes noAltitude ⟨2026, 1, 2, 0⟩).sunrise := by
  have h1 : (drawSunStep (ComputeSunData sampleSunTimes noAltitude) ⟨2026, 1, 2, 0⟩
      sampleState).sun = sampleState.sun := by
    unfold drawSunStep sampleState localDate
    rw [if_neg (by decide)]
  refine ⟨?_, ?_, h1, ?_⟩
  · unfold drawSunStep sampleState localDate
    rw [if_pos (by decide)]
  · unfold drawSunStep sampleState localDate
    rw [if_neg (by decide)]
  · rw [h1]
    show (ComputeSunData sampleSunTimes noAltitude ⟨2026, 1, 1, 0⟩).sunrise
        ≠ (ComputeSunData sampleSunTimes noAltitude ⟨2026, 1, 2, 0⟩).sunrise
    simp [ComputeSunData, sampleSunTimes]

/-! ### The solar-term year table -/

theorem buildYearTable_eq (y : ℤ) :
    buildYearTable y = SEKki_ORDER.map (fun t =>
      (⟨t.index, t.name, makeDate (if 23 ≤ t.index then y + 1 else y) t.mo t.d⟩
        : SekkiEntry)) := by
  unfold buildYearTable
  apply List.Sorted.insertionSort_eq
  rw [List.Sorted, ← List.chain'_iff_pairwise]
  simp only [SEKki_ORDER, List.map_cons, List.map_nil]
  simp only [List.chain'_cons, List.chain'_singleton, and_true]
  norm_num [sekkiLE, key, makeDate]
  omega

theorem buildYearTable_length (y : ℤ) : (buildYearTable y).length = 24 := by
  unfold buildYearTable
  rw [List.length_insertionSort]
  simp [SEKki_ORDER]

theorem mem_buildYearTable_prop (y : ℤ) (e : SekkiEntry) (he : e ∈ buildYearTable y) :
    1 ≤ e.index ∧ e.index ≤ 24 ∧ e.name ∈ sekkiNames := by
  unfold buildYearTable at he
  have he2 := (List.perm_insertionSort sekkiLE _).mem_iff.mp he
  obtain ⟨t, ht, rfl⟩ := List.mem_map.mp he2
  have hall : ∀ s ∈ SEKki_ORDER, 1 ≤ s.index ∧ s.index ≤ 24 ∧ s.name ∈ sekkiNames := by
    decide
  exact hall t ht

theorem getD_mem_buildYearTable (y : ℤ) (i : ℕ) (hi : i < 24) :
    (buildYearTable y).getD i sekkiDflt ∈ buildYearTable y := by
  have hlen : i < (buildYearTable y).length := by
    rw [buildYearTable_length]
    exact hi
  rw [List.getD_eq_getElem?_getD, List.getElem?_eq_getElem hlen]
  exact List.getElem_mem hlen

theorem sekkiScan_prop (now : Instant) (r : SekkiResult) (h : sekkiScan now = some r) :
    1 ≤ r.index ∧ r.index ≤ 24 ∧ r.name ∈ sekkiNames := by
  have hmem : ∀ e ∈ buildYearTable now.y, 1 ≤ e.index ∧ e.index ≤ 24 ∧ e.name ∈ sekkiNames :=
    fun e he => mem_buildYearTable_prop now.y e he
  unfold sekkiScan at h
  revert hmem h
  generalize buildYearTable now.y = T
  intro h hmem
  obtain ⟨i, hi, hf⟩ := List.exists_of_findSome?_eq_some h
  have hilt : i < T.length := List.mem_range.mp hi
  have hTmem : T.getD i sekkiDflt ∈ T := by
    rw [List.getD_eq_getElem?_getD, List.getElem?_eq_getElem hilt]
    exact List.getElem_mem hilt
  obtain ⟨p1, p2, p3⟩ := hmem _ hTmem
  revert hf
  split
  · intro hf
    injection hf with h2
    subst h2
    exact ⟨p1, p2, p3⟩
  · intro hf
    exact absurd hf (by simp)

/-- Claim C10: `getSekki` is total: for every query instant it returns (no
exception path exists) a record whose index lies in 1..24 and whose name
is one of the 24 fixed term names — in particular early-January queries,
which match no interval, are answered by the fallback branch. -/
theorem c10_get_sekki_total (now : Instant) :
    1 ≤ (getSekki now).index ∧ (getSekki now).index ≤ 24 ∧
    (getSekki now).name ∈ sekkiNames := by
  unfold getSekki
  cases hscan : sekkiScan now with
  | some r => exact sekkiScan_prop now r hscan
  | none =>
    have hmem : ∀ e ∈ buildYearTable now.y,
        1 ≤ e.index ∧ e.index ≤ 24 ∧ e.name ∈ sekkiNames :=
      fun e he => mem_buildYearTable_prop now.y e he
    have hlen : (buildYearTable now.y).length = 24 := buildYearTable_length now.y
    revert hmem hlen
    generalize buildYearTable now.y = T
    intro hmem hlen
    have h23 : T.length - 1 < T.length := by
      rw [hlen]
      norm_num
    have hTmem : T.getD (T.length - 1) sekkiDflt ∈ T := by
      rw [List.getD_eq_getElem?_getD, List.getElem?_eq_getElem h23]
      exact List.getElem_mem h23
    obtain ⟨p1, p2, p3⟩ := hmem _ hTmem
    exact ⟨p1, p2, p3⟩

theorem key_table_date (y : ℤ) (i : ℕ) (hi : i < 24) :
    key ((buildYearTable y).getD i sekkiDflt).date = y * 33177600000 + cA i := by
  rw [buildYearTable_eq]
  interval_cases i
  · show key (makeDate y 2 4) = y * 33177600000 + cA 0
    rw [show cA 0 = 3110400000 from rfl]
    rw [show key (makeDate y 2 4)
        = y * 33177600000 + (((2:ℕ):ℤ) - 1) * 2764800000
          + ((4:ℕ):ℤ) * 86400000 + ((0:ℕ):ℤ) from rfl]
    push_cast
    ring
  · show key (makeDate y 2 19) = y * 33177600000 + cA 1
    rw [show cA 1 = 4406400000 from rfl]
    rw [show key (makeDate y 2 19)
        = y * 33177600000 + (((2:ℕ):ℤ) - 1) * 2764800000
          + ((19:ℕ):ℤ) * 86400000 + ((0:ℕ):ℤ) from rfl]
    push_cast
    ring
  · show key (makeDate y 3 6) = y * 33177600000 + cA 2
    rw [show cA 2 = 6048000000 from rfl]
    rw [show key (makeDate y 3 6)
        = y * 33177600000 + (((3:ℕ):ℤ) - 1) * 2764800000
          + ((6:ℕ):ℤ) * 86400000 + ((0:ℕ):ℤ) from rfl]
    push_cast
    ring
  · show key (makeDate y 3 20) = y * 33177600000 + cA 3
    rw [show cA 3 = 7257600000 from rfl]
    rw [show key (makeDate y 3 20)
        = y * 33177600000 + (((3:ℕ):ℤ) - 1) * 2764800000
          + ((20:ℕ):ℤ) * 86400000 + ((0:ℕ):ℤ) from rfl]
    push_cast
    ring
  · show key (makeDate y 4 5) = y * 33177600000 + cA 4
    rw [show cA 4 = 8726400000 from rfl]
    rw [show key (makeDate y 4 5)
        = y * 33177600000 + (((4:ℕ):ℤ) - 1) * 2764800000
          + ((5:ℕ):ℤ) * 86400000 + ((0:ℕ):ℤ) from rfl]
    push_cast
    ring
  · show key (makeDate y 4 20) = y * 33177600000 + cA 5
    rw [show cA 5 = 10022400000 from rfl]
    rw [show key (makeDate y 4 20)
        = y * 33177600000 + (((4:ℕ):ℤ) - 1) * 2764800000
          + ((20:ℕ):ℤ) * 86400000 + ((0:ℕ):ℤ) from rfl]
    push_cast
    ring
  · show key (makeDate y 5 5) = y * 33177600000 + cA 6
    rw [show cA 6 = 11491200000 from rfl]
    rw [show key (makeDate y 5 5)
        = y * 33177600000 + (((5:ℕ):ℤ) - 1) * 2764800000
          + ((5:ℕ):ℤ) * 86400000 + ((0:ℕ):ℤ) from rfl]
    push_cast
    ring
  · show key (makeDate y 5 21) = y * 33177600000 + cA 7
    rw [show cA 7 = 12873600000 from rfl]
    rw [show key (makeDate y 5 21)
        = y * 33177600000 + (((5:ℕ):ℤ) - 1) * 2764800000
          + ((21:ℕ):ℤ) * 86400000 + ((0:ℕ):ℤ) from rfl]
    push_cast
    ring
  · show key (makeDate y 6 6) = y * 33177600000 + cA 8
    rw [show cA 8 = 14342400000 from rfl]
    rw [show key (makeDate y 6 6)
        = y * 33177600000 + (((6:ℕ):ℤ) - 1) * 2764800000
          + ((6:ℕ):ℤ) * 86400000 + ((0:ℕ):ℤ) from rfl]
    push_cast
    ring
  · show key (makeDate y 6 21) = y * 33177600000 + cA 9
    rw [show cA 9 = 15638400000 from rfl]
    rw [show key (makeDate y 6 21)
        = y * 33177600000 + (((6:ℕ):ℤ) - 1) * 2764800000
          + ((21:ℕ):ℤ) * 86400000 + ((0:ℕ):ℤ) from rfl]
    push_cast
    ring
  · show key (makeDate y 7 7) = y * 33177600000 + cA 10
    rw [show cA 10 = 17193600000 from rfl]
    rw [show key (makeDate y 7 7)
        = y * 33177600000 + (((7:ℕ):ℤ) - 1) * 2764800000
          + ((7:ℕ):ℤ) * 86400000 + ((0:ℕ):ℤ) from rfl]
    push_cast
    ring
  · show key (makeDate y 7 23) = y * 33177600000 + cA 11
    rw [show cA 11 = 18576000000 from rfl]
    rw [show key (makeDate y 7 23)
        = y * 33177600000 + (((7:ℕ):ℤ) - 1) * 2764800000
          + ((23:ℕ):ℤ) * 86400000 + ((0:ℕ):ℤ) from rfl]
    push_cast
    ring
  · show key (makeDate y 8 8) = y * 33177600000 + cA 12
    rw [show cA 12 = 20044800000 from rfl]
    rw [show key (makeDate y 8 8)
        = y * 33177600000 + (((8:ℕ):ℤ) - 1) * 2764800000
          + ((8:ℕ):ℤ) * 86400000 + ((0:ℕ):ℤ) from rfl]
    push_cast
    ring
  · show key (makeDate y 8 23) = y * 33177600000 + cA 13
    rw [show cA 13 = 21340800000 from rfl]
    rw [show key (makeDate y 8 23)
        = y * 33177600000 + (((8:ℕ):ℤ) - 1) * 2764800000
          + ((23:ℕ):ℤ) * 86400000 + ((0:ℕ):ℤ) from rfl]
    push_cast
    ring
  · show key (makeDate y 9 8) = y * 33177600000 + cA 14
    rw [show cA 14 = 22809600000 from rfl]
    rw [show key (makeDate y 9 8)
        = y * 33177600000 + (((9:ℕ):ℤ) - 1) * 2764800000
          + ((8:ℕ):ℤ) * 86400000 + ((0:ℕ):ℤ) from rfl]
    push_cast
    ring
  · show key (makeDate y 9 23) = y * 33177600000 + cA 15
    rw [show cA 15 = 24105600000 from rfl]
    rw [show key (makeDate y 9 23)
        = y * 33177600000 + (((9:ℕ):ℤ) - 1) * 2764800000
          + ((23:ℕ):ℤ) * 86400000 + ((0:ℕ):ℤ) from rfl]
    push_cast
    ring
  · show key (makeDate y 10 8) = y * 33177600000 + cA 16
    rw [show cA 16 = 25574400000 from rfl]
    rw [show key (makeDate y 10 8)
        = y * 33177600000 + (((10:ℕ):ℤ) - 1) * 2764800000
          + ((8:ℕ):ℤ) * 86400000 + ((0:ℕ):ℤ) from rfl]
    push_cast
    ring
  · show key (makeDate y 10 23) = y * 33177600000 + cA 17
    rw [show cA 17 = 26870400000 from rfl]
    rw [show key (makeDate y 10 23)
        = y * 33177600000 + (((10:ℕ):ℤ) - 1) * 2764800000
          + ((23:ℕ):ℤ) * 86400000 + ((0:ℕ):ℤ) from rfl]
    push_cast
    ring
  · show key (makeDate y 11 7) = y * 33177600000 + cA 18
    rw [show cA 18 = 28252800000 from rfl]
    rw [show key (makeDate y 11 7)
        = y * 33177600000 + (((11:ℕ):ℤ) - 1) * 2764800000
          + ((7:ℕ):ℤ) * 86400000 + ((0:ℕ):ℤ) from rfl]
    push_cast
    ring
  · show key (makeDate y 11 22) = y * 33177600000 + cA 19
    rw [show cA 19 = 29548800000 from rfl]
    rw [show key (makeDate y 11 22)
        = y * 33177600000 + (((11:ℕ):ℤ) - 1) * 2764800000
          + ((22:ℕ):ℤ) * 86400000 + ((0:ℕ):ℤ) from rfl]
    push_cast
    ring
  · show key (makeDate y 12 7) = y * 33177600000 + cA 20
    rw [show cA 20 = 31017600000 from rfl]
    rw [show key (makeDate y 12 7)
        = y * 33177600000 + (((12:ℕ):ℤ) - 1) * 2764800000
          + ((7:ℕ):ℤ) * 86400000 + ((0:ℕ):ℤ) from rfl]
    push_cast
    ring
  · show key (makeDate y 12 22) = y * 33177600000 + cA 21
    rw [show cA 21 = 32313600000 from rfl]
    rw [show key (makeDate y 12 22)
        = y * 33177600000 + (((12:ℕ):ℤ) - 1) * 2764800000
          + ((22:ℕ):ℤ) * 86400000 + ((0:ℕ):ℤ) from rfl]
    push_cast
    ring
  · show key (makeDate (y + 1) 1 6) = y * 33177600000 + cA 22
    rw [show cA 22 = 33696000000 from rfl]
    rw [show key (makeDate (y + 1) 1 6)
        = (y + 1) * 33177600000 + (((1:ℕ):ℤ) - 1) * 2764800000
          + ((6:ℕ):ℤ) * 86400000 + ((0:ℕ):ℤ) from rfl]
    push_cast
    ring
  · show key (makeDate (y + 1) 1 20) = y * 33177600000 + cA 23
    rw [show cA 23 = 34905600000 from rfl]
    rw [show key (makeDate (y + 1) 1 20)
        = (y + 1) * 33177600000 + (((1:ℕ):ℤ) - 1) * 2764800000
          + ((20:ℕ):ℤ) * 86400000 + ((0:ℕ):ℤ) from rfl]
    push_cast
    ring

theorem cA_exists (n : ℤ) (hl : cA 0 ≤ n) (hr : n < 33177600000) :
    ∃ i : ℕ, i < 24 ∧ cA i ≤ n ∧ n < cA (i + 1) := by
  rw [show cA 0 = 3110400000 from rfl] at hl
  by_cases h1 : n < 4406400000
  · exact ⟨0, by norm_num, by rw [show cA 0 = 3110400000 from rfl]; omega,
      by rw [show cA 1 = 4406400000 from rfl]; omega⟩
  by_cases h2 : n < 6048000000
  · exact ⟨1, by norm_num, by rw [show cA 1 = 4406400000 from rfl]; omega,
      by rw [show cA 2 = 6048000000 from rfl]; omega⟩
  by_cases h3 : n < 7257600000
  · exact ⟨2, by norm_num, by rw [show cA 2 = 6048000000 from rfl]; omega,
      by rw [show cA 3 = 7257600000 from rfl]; omega⟩
  by_cases h4 : n < 8726400000
  · exact ⟨3, by norm_num, by rw [show cA 3 = 7257600000 from rfl]; omega,
      by rw [show cA 4 = 8726400000 from rfl]; omega⟩
  by_cases h5 : n < 10022400000
  · exact ⟨4, by norm_num, by rw [show cA 4 = 8726400000 from rfl]; omega,
      by rw [show cA 5 = 10022400000 from rfl]; omega⟩
  by_cases h6 : n < 11491200000
  · exact ⟨5, by norm_num, by rw [show cA 5 = 10022400000 from rfl]; omega,
      by rw [show cA 6 = 11491200000 from rfl]; omega⟩
  by_cases h7 : n < 12873600000
  · exact ⟨6, by norm_num, by rw [show cA 6 = 11491200000 from rfl]; omega,
      by rw [show cA 7 = 12873600000 from rfl]; omega⟩
  by_cases h8 : n < 14342400000
  · exact ⟨7, by norm_num, by rw [show cA 7 = 12873600000 from rfl]; omega,
      by rw [show cA 8 = 14342400000 from rfl]; omega⟩
  by_cases h9 : n < 15638400000
  · exact ⟨8, by norm_num, by rw [show cA 8 = 14342400000 from rfl]; omega,
      by rw [show cA 9 = 15638400000 from rfl]; omega⟩
  by_cases h10 : n < 17193600000
  · exact ⟨9, by norm_num, by rw [show cA 9 = 15638400000 from rfl]; omega,
      by rw [show cA 10 = 17193600000 from rfl]; omega⟩
  by_cases h11 : n < 18576000000
  · exact ⟨10, by norm_num, by rw [show cA 10 = 17193600000 from rfl]; omega,
      by rw [show cA 11 = 18576000000 from rfl]; omega⟩
  by_cases h12 : n < 20044800000
  · exact ⟨11, by norm_num, by rw [show cA 11 = 18576000000 from rfl]; omega,
      by rw [show cA 12 = 20044800000 from rfl]; omega⟩
  by_cases h13 : n < 21340800000
  · exact ⟨12, by norm_num, by rw [show cA 12 = 20044800000 from rfl]; omega,
      by rw [show cA 13 = 21340800000 from rfl]; omega⟩
  by_cases h14 : n < 22809600000
  · exact ⟨13, by norm_num, by rw [show cA 13 = 21340800000 from rfl]; omega,
      by rw [show cA 14 = 22809600000 from rfl]; omega⟩
  by_cases h15 : n < 24105600000
  · exact ⟨14, by norm_num, by rw [show cA 14 = 22809600000 from rfl]; omega,
      by rw [show cA 15 = 24105600000 from rfl]; omega⟩
  by_cases h16 : n < 25574400000
  · exact ⟨15, by norm_num, by rw [show cA 15 = 24105600000 from rfl]; omega,
      by rw [show cA 16 = 25574400000 from rfl]; omega⟩
  by_cases h17 : n < 26870400000
  · exact ⟨16, by norm_num, by rw [show cA 16 = 25574400000 from rfl]; omega,
      by rw [show cA 17 = 26870400000 from rfl]; omega⟩
  by_cases h18 : n < 28252800000
  · exact ⟨17, by norm_num, by rw [show cA 17 = 26870400000 from rfl]; omega,
      by rw [show cA 18 = 28252800000 from rfl]; omega⟩
  by_cases h19 : n < 29548800000
  · exact ⟨18, by norm_num, by rw [show cA 18 = 28252800000 from rfl]; omega,
      by rw [show cA 19 = 29548800000 from rfl]; omega⟩
  by_cases h20 : n < 31017600000
  · exact ⟨19, by norm_num, by rw [show cA 19 = 29548800000 from rfl]; omega,
      by rw [show cA 20 = 31017600000 from rfl]; omega⟩
  by_cases h21 : n < 32313600000
  · exact ⟨20, by norm_num, by rw [show cA 20 = 31017600000 from rfl]; omega,
      by rw [show cA 21 = 32313600000 from rfl]; omega⟩
  exact ⟨21, by norm_num, by rw [show cA 21 = 32313600000 from rfl]; omega,
    by rw [show cA 22 = 33696000000 from rfl]; omega⟩

theorem cA_mono : ∀ a b : Fin 24, a.val < b.val → cA a.val < cA b.val := by
  decide

theorem cA_unique (n : ℤ) (i j : ℕ) (hi : i < 24) (hj : j < 24)
    (hic : cA i ≤ n ∧ n < cA (i + 1)) (hjc : cA j ≤ n ∧ n < cA (j + 1)) :
    i = j := by
  rcases Nat.lt_trichotomy i j with h | h | h
  · exfalso
    have hle : cA (i + 1) ≤ cA j := by
      rcases Nat.eq_or_lt_of_le (Nat.succ_le_of_lt h) with he | hlt
      · rw [show i + 1 = j from he]
      · exact le_of_lt (cA_mono ⟨i + 1, by omega⟩ ⟨j, hj⟩ hlt)
    omega
  · exact h
  · exfalso
    have hle : cA (j + 1) ≤ cA i := by
      rcases Nat.eq_or_lt_of_le (Nat.succ_le_of_lt h) with he | hlt
      · rw [show j + 1 = i from he]
      · exact le_of_lt (cA_mono ⟨j + 1, by omega⟩ ⟨i, hi⟩ hlt)
    omega

theorem tableContains_iff (now : Instant) (i : ℕ) (hi : i < 24) :
    (key ((buildYearTable now.y).getD i sekkiDflt).date ≤ key now ∧
      key now < key ((buildYearTable now.y).getD ((i + 1) % 24) sekkiDflt).date)
    ↔ (now.y * 33177600000 + cA i ≤ key now ∧
       key now < now.y * 33177600000 + cA (i + 1)) := by
  rw [key_table_date now.y i hi]
  by_cases h24 : i = 23
  · subst h24
    rw [show (23 + 1) % 24 = 0 from rfl]
    rw [key_table_date now.y 0 (by norm_num)]
    rw [show cA (23 + 1) = cA 0 from rfl]
  · have hlt : i + 1 < 24 := by omega
    rw [Nat.mod_eq_of_lt hlt]
    rw [key_table_date now.y (i + 1) hlt]

/-- Claim C4 as amended: the 24 intervals of the query-year table tile
`[Feb 4 Y, Jan 20 Y+1)`; every valid query instant on or after Feb 4 of
its own civil year lies in exactly one interval and `sekkiScan` finds it
(no fallback).  Instants before Feb 4 (Jan 1 – Feb 3) lie in no interval
of their query-year table — see the counterexample — and take the
fallback branch. -/
theorem c4_tiling_amended (now : Instant)
    (hmo1 : 1 ≤ now.mo) (hmo2 : now.mo ≤ 12) (hd1 : 1 ≤ now.d) (hd2 : now.d ≤ 31)
    (hms : now.ms < 86400000)
    (hfeb : key (makeDate now.y 2 4) ≤ key now) :
    (∃! i : ℕ, i < 24 ∧
      key ((buildYearTable now.y).getD i sekkiDflt).date ≤ key now ∧
      key now < key ((buildYearTable now.y).getD ((i + 1) % 24) sekkiDflt).date) ∧
    sekkiScan now ≠ none := by
  have hkey : key now = now.y * 33177600000 + ((now.mo : ℤ) - 1) * 2764800000
      + (now.d : ℤ) * 86400000 + (now.ms : ℤ) := rfl
  have hfeb2 : key (makeDate now.y 2 4)
      = now.y * 33177600000 + (((2 : ℕ) : ℤ) - 1) * 2764800000
        + ((4 : ℕ) : ℤ) * 86400000 + ((0 : ℕ) : ℤ) := rfl
  have hl : cA 0 ≤ key now - now.y * 33177600000 := by
    rw [show cA 0 = 3110400000 from rfl]
    rw [hfeb2] at hfeb
    push_cast at hfeb
    omega
  have hr : key now - now.y * 33177600000 < 33177600000 := by
    rw [hkey]
    omega
  obtain ⟨i, hi24, hia, hib⟩ := cA_exists (key now - now.y * 33177600000) hl hr
  constructor
  · refine ⟨i, ⟨hi24, (tableContains_iff now i hi24).mpr ⟨by omega, by omega⟩⟩, ?_⟩
    rintro j ⟨hj24, hjc⟩
    have hj2 := (tableContains_iff now j hj24).mp hjc
    exact cA_unique (key now - now.y * 33177600000) j i hj24 hi24
      ⟨by omega, by omega⟩ ⟨by omega, by omega⟩
  · intro hnone
    unfold sekkiScan at hnone
    rw [List.findSome?_eq_none_iff] at hnone
    have hmemrange : i ∈ List.range (buildYearTable now.y).length := by
      rw [buildYearTable_length]
      exact List.mem_range.mpr hi24
    have hcond : key ((buildYearTable now.y).getD i sekkiDflt).date ≤ key now ∧
        key now < key ((buildYearTable now.y).getD
          ((i + 1) % (buildYearTable now.y).length) sekkiDflt).date := by
      rw [buildYearTable_length]
      exact (tableContains_iff now i hi24).mpr ⟨by omega, by omega⟩
    have h2 := hnone i hmemrange
    beta_reduce at h2
    rw [if_pos hcond] at h2
    exact absurd h2 (by simp)

/-- Witness for the amended C4 at the valid instant 2024-05-15 00:00. -/
theorem c4_tiling_amended_witness :
    sekkiScan ⟨2024, 5, 15, 0⟩ ≠ none :=
  (c4_tiling_amended ⟨2024, 5, 15, 0⟩ (by norm_num) (by norm_num) (by norm_num)
    (by norm_num) (by norm_num) (by decide)).2

/-- Counterexample to claim C4: the query instant 2024-01-10 00:00 local
is contained in no interval of its query-year table (the 2024 table spans
2024-02-04 … 2025-01-20, and its last interval [2025-01-20, 2024-02-04)
is empty), so `getSekki` relies on the fallback branch, whose returned
interval start (2025-01-20) lies in the query instant's future. -/
theorem c4_counterexample :
    sekkiScan ⟨2024, 1, 10, 0⟩ = none ∧
    key (⟨2024, 1, 10, 0⟩ : Instant) < key (getSekki ⟨2024, 1, 10, 0⟩).start := by
  constructor
  · decide
  · decide
